import Mathlib

/-!
Verification of the Afghan Proverbs JSON-backed record store and its CRUD
handlers (src/app.js), as a shallow embedding.

Modelling choices:
* A proverb record mirrors the JS object; every text field is an
  `Option String` because a JS field can hold `undefined` (a missing form
  field is `undefined`, and `JSON.stringify` drops such a field, so after a
  write/read round trip the field is simply absent — `none` models both).
* The backing file `proverbs.json` is a `FileState`: absent, malformed
  (unparseable JSON), or holding a parsed list of records.
* Record ids are `Int` (JS numbers; every id the app creates is a positive
  integer, but the store itself does not enforce that).
* Each Express handler becomes a pure function from its inputs and the file
  state to the new file state and an HTTP-level `Response` (render/redirect),
  mirroring the source line by line; `fs.writeFile` always succeeds in the
  model (disk errors are out of scope of the claims).
-/

/-- One proverb record, mirroring the JS object shape. -/
structure Proverb where
  id : Int
  textDari : Option String
  textPashto : Option String
  translationEn : Option String
  meaning : Option String
  category : Option String
deriving DecidableEq, Repr

/-- A create/edit request body (`req.body`); a field the client did not
submit is `none` (JS `undefined`). -/
structure Body where
  textDari : Option String
  textPashto : Option String
  translationEn : Option String
  meaning : Option String
  category : Option String
deriving DecidableEq, Repr

/-- The backing JSON file: absent, present but unparseable, or a parsed list. -/
inductive FileState where
  | absent : FileState
  | malformed : FileState
  | content : List Proverb → FileState
deriving DecidableEq, Repr

/-- The handler outcomes the claims talk about: a redirect to a URL, or a
server-side render of one of the views. -/
inductive Response where
  | redirect : String → Response
  | renderHome : List Proverb → Option String → Response
  | renderDetail : Proverb → Response
  | renderAddForm : Option String → Body → Response
  | renderEditForm : Proverb → Response
  | renderEditError : Body → Int → Response
deriving DecidableEq, Repr

/-- `readProverbs` (src/app.js:22-34): read and parse the file; on ENOENT
write `[]` and return the empty list; any other failure propagates. -/
def readProverbs : FileState → FileState × Except Unit (List Proverb)
  | .absent => (.content [], .ok [])
  | .malformed => (.malformed, .error ())
  | .content l => (.content l, .ok l)

/-- `writeProverbs` (src/app.js:36-38): serialize the whole list, overwriting
the file. -/
def writeProverbs (l : List Proverb) (_fs : FileState) : FileState :=
  .content l

/-- JS truthiness test as used by `!req.body.field`: `undefined` and the
empty string are falsy; every other string is truthy. -/
def falsy : Option String → Bool
  | none => true
  | some s => s == ""

/-- The validation guard of POST /add-proverb (src/app.js:82):
`!textDari || !textPashto || !translationEn || !category`. -/
def requiredMissing (b : Body) : Bool :=
  falsy b.textDari || falsy b.textPashto || falsy b.translationEn || falsy b.category

/-- `Math.max(...xs)` for a list of ids; only ever applied to a non-empty
list by the source (the `[]` case is unreachable there). -/
def maxId : List Int → Int
  | [] => 0
  | x :: xs => xs.foldl max x

/-- The id expression of POST /add-proverb (src/app.js:92):
`proverbs.length > 0 ? Math.max(...proverbs.map(p => p.id)) + 1 : 1`. -/
def nextId (l : List Proverb) : Int :=
  if l.length > 0 then maxId (l.map Proverb.id) + 1 else 1

/-- The `newProverb` object literal of POST /add-proverb (src/app.js:91-98);
`meaning: req.body.meaning || ''` defaults a falsy meaning to `''`. -/
def newProverbOf (b : Body) (l : List Proverb) : Proverb :=
  { id := nextId l
    textDari := b.textDari
    textPashto := b.textPashto
    translationEn := b.translationEn
    meaning := if falsy b.meaning then some "" else b.meaning
    category := b.category }

/-- POST /add-proverb (src/app.js:80-110): validate, read, append, write. -/
def addProverb (b : Body) (fs : FileState) : FileState × Response :=
  if requiredMissing b then
    (fs, .renderAddForm (some "Please fill in all required fields") b)
  else
    match readProverbs fs with
    | (fs', .error _) => (fs', .renderAddForm (some "Failed to add proverb") b)
    | (fs', .ok l) =>
        (writeProverbs (l ++ [newProverbOf b l]) fs',
         .redirect "/?success=Proverb added successfully")

/-- GET /proverb/:id (src/app.js:51-65): find the first record with the
requested id; not found redirects home with an error notice. -/
def getProverb (id : Int) (fs : FileState) : FileState × Response :=
  match readProverbs fs with
  | (fs', .error _) => (fs', .redirect "/?error=Failed to load proverb")
  | (fs', .ok l) =>
      match l.find? (fun p => p.id == id) with
      | none => (fs', .redirect "/?error=Proverb not found")
      | some p => (fs', .renderDetail p)

/-- The object spread of POST /edit-proverb (src/app.js:137-144):
`{...proverbs[index], textDari: ..., ..., category: ...}` — every field but
`id` is replaced by the submitted value, with no defaulting. -/
def updatedProverb (p : Proverb) (b : Body) : Proverb :=
  { p with
    textDari := b.textDari
    textPashto := b.textPashto
    translationEn := b.translationEn
    meaning := b.meaning
    category := b.category }

/-- POST /edit-proverb/:id (src/app.js:128-155): `findIndex` by id (JS
returns -1 when no record matches, which is exactly when the Lean `findIdx`
result indexes out of range, i.e. `l[i]? = none`); on a match the record at
that index is replaced in place. -/
def editProverb (id : Int) (b : Body) (fs : FileState) : FileState × Response :=
  match readProverbs fs with
  | (fs', .error _) => (fs', .renderEditError b id)
  | (fs', .ok l) =>
      let i := l.findIdx (fun p => p.id == id)
      match l[i]? with
      | none => (fs', .redirect "/?error=Proverb not found")
      | some p =>
          (writeProverbs (l.set i (updatedProverb p b)) fs',
           .redirect s!"/proverb/{id}?success=Proverb updated successfully")

/-- POST /delete-proverb/:id (src/app.js:157-172): filter out the matching
id; if the filtered list has the same length nothing matched. -/
def deleteProverb (id : Int) (fs : FileState) : FileState × Response :=
  match readProverbs fs with
  | (fs', .error _) => (fs', .redirect s!"/proverb/{id}?error=Failed to delete proverb")
  | (fs', .ok l) =>
      let fl := l.filter (fun p => !(p.id == id))
      if l.length = fl.length then
        (fs', .redirect s!"/proverb/{id}?error=Proverb not found")
      else
        (writeProverbs fl fs', .redirect "/?success=Proverb deleted successfully")

/-- The five seed records of `initializeData` (src/app.js:195-236). -/
def sampleProverbs : List Proverb :=
  [ { id := 1
      textDari := some "با یک دست دو هندوانه نتوان گرفت"
      textPashto := some "په یوه الس دو هندوانې نه شي نیول کېدای"
      translationEn := some "You can\x27t hold two watermelons in one hand"
      meaning := some "Don\x27t take on more tasks than you can handle"
      category := some "wisdom" }
  , { id := 2
      textDari := some "دوست از دوست بی نیاز"
      textPashto := some "ملګری له ملګري بې پروا"
      translationEn := some "A friend is never in need of a friend"
      meaning := some "True friends support each other"
      category := some "friendship" }
  , { id := 3
      textDari := some "هر که بامش بیش، برفش بیشتر"
      textPashto := some "چا چې د ګرځې لوړوالی زیات وي، د برف کچه یې هم زیاتوي"
      translationEn := some "The higher the roof, the more snow it collects"
      meaning := some "Greater positions come with greater responsibilities"
      category := some "life" }
  , { id := 4
      textDari := some "سگ زرد برادر شغال است"
      textPashto := some "ژېړ سپی د ګېډۍ ورور دی"
      translationEn := some "A yellow dog is a brother to the jackal"
      meaning := some "People of similar character stick together"
      category := some "wisdom" }
  , { id := 5
      textDari := some "آب که از سر گذشت، چه یک وجب چه صد وجب"
      textPashto := some "چې اوبه له سر تیریږي، نو یو څوکه یا سل څوکه څه توپیر لري"
      translationEn := some "When water has passed over your head, what difference does it make if it\x27s one span or a hundred?"
      meaning := some "Once you\x27re in deep trouble, the extent doesn\x27t matter"
      category := some "life" }
  ]

/-- `initializeData` (src/app.js:192-240): read; if empty, write the five
samples. A read failure propagates (the `.error` case). -/
def initializeData (fs : FileState) : FileState × Except Unit Unit :=
  match readProverbs fs with
  | (fs', .error e) => (fs', .error e)
  | (fs', .ok l) =>
      if l.length = 0 then (writeProverbs sampleProverbs fs', .ok ())
      else (fs', .ok ())

/-- C1: writing any sequence of records and then reading yields exactly that
sequence back, field for field and in order (and leaves the file holding it). -/
theorem writeAll_readAll_roundtrip (x : List Proverb) (fs : FileState) :
    readProverbs (writeProverbs x fs) = (.content x, .ok x) := rfl

/-- C8: reading an absent backing file writes an empty list to it and
returns the empty list without error; reading a malformed file propagates
the error to the caller and leaves the file unchanged. -/
theorem readAll_absent_and_malformed :
    readProverbs .absent = (.content [], .ok []) ∧
    readProverbs .malformed = (.malformed, .error ()) :=
  ⟨rfl, rfl⟩

/-! ### Helper lemmas about `maxId` and `nextId` -/

lemma le_foldl_max (ys : List Int) : ∀ a : Int, a ≤ ys.foldl max a := by
  induction ys with
  | nil => intro a; exact le_refl a
  | cons y ys ih => intro a; exact le_trans (le_max_left a y) (ih (max a y))

lemma mem_le_foldl_max (x : Int) : ∀ (ys : List Int) (a : Int), x ∈ ys → x ≤ ys.foldl max a := by
  intro ys
  induction ys with
  | nil => intro a h; simp at h
  | cons y ys ih =>
      intro a h
      rcases List.mem_cons.mp h with h | h
      · subst h; exact le_trans (le_max_right a x) (le_foldl_max ys (max a x))
      · exact ih (max a y) h

lemma foldl_max_mem (ys : List Int) : ∀ a : Int, ys.foldl max a = a ∨ ys.foldl max a ∈ ys := by
  induction ys with
  | nil => intro a; exact Or.inl rfl
  | cons y ys ih =>
      intro a
      rcases ih (max a y) with h | h
      · rcases max_choice a y with hm | hm
        · exact Or.inl (by rw [List.foldl_cons, h, hm])
        · exact Or.inr (by rw [List.foldl_cons, h, hm]; exact List.mem_cons_self y ys)
      · exact Or.inr (List.mem_cons_of_mem y h)

lemma le_maxId (x : Int) (xs : List Int) (h : x ∈ xs) : x ≤ maxId xs := by
  cases xs with
  | nil => simp at h
  | cons y ys =>
      rcases List.mem_cons.mp h with h | h
      · subst h; exact le_foldl_max ys x
      · exact mem_le_foldl_max x ys y h

lemma maxId_mem (y : Int) (ys : List Int) : maxId (y :: ys) ∈ y :: ys := by
  rcases foldl_max_mem ys y with h | h
  · rw [maxId, h]; exact List.mem_cons_self y ys
  · exact List.mem_cons_of_mem y (by rw [maxId]; exact h)

lemma nextId_gt (l : List Proverb) (q : Proverb) (h : q ∈ l) : q.id < nextId l := by
  have hlen : 0 < l.length := List.length_pos.mpr (by rintro rfl; simp at h)
  have hmem : q.id ∈ l.map Proverb.id := List.mem_map_of_mem Proverb.id h
  have := le_maxId q.id (l.map Proverb.id) hmem
  simp only [nextId, if_pos hlen]
  omega

lemma nextId_pred_mem (l : List Proverb) (h : l ≠ []) :
    (nextId l - 1) ∈ l.map Proverb.id := by
  have hlen : 0 < l.length := List.length_pos.mpr h
  simp only [nextId, if_pos hlen, add_sub_cancel_right]
  cases l with
  | nil => simp at h
  | cons p rest => exact maxId_mem p.id (rest.map Proverb.id)

/-- C2: a valid create appends one record whose id is 1 on an empty store
and max(existing ids)+1 on a non-empty one (strictly above every existing
id, and exactly one more than an existing id — never a gap-filling value). -/
theorem add_assigns_next_id (b : Body) (l : List Proverb)
    (h : requiredMissing b = false) :
    (addProverb b (.content l)).1 = .content (l ++ [newProverbOf b l]) ∧
    (l = [] → (newProverbOf b l).id = 1) ∧
    (∀ q ∈ l, q.id < (newProverbOf b l).id) ∧
    (l ≠ [] → ((newProverbOf b l).id - 1) ∈ l.map Proverb.id) := by
  refine ⟨?_, ?_, ?_, ?_⟩
  · simp [addProverb, h, readProverbs, writeProverbs]
  · rintro rfl; rfl
  · intro q hq; exact nextId_gt l q hq
  · intro hne; exact nextId_pred_mem l hne

/-- A well-formed create request used by the witnesses. -/
def bOk : Body :=
  { textDari := some "d", textPashto := some "p", translationEn := some "t"
    meaning := some "m", category := some "wisdom" }

/-- A store whose ids are 1, 3, 5, used by the witnesses. -/
def l135 : List Proverb :=
  [ { id := 1, textDari := some "a", textPashto := some "b"
      translationEn := some "c", meaning := some "d", category := some "e" }
  , { id := 3, textDari := some "f", textPashto := some "g"
      translationEn := some "h", meaning := some "i", category := some "j" }
  , { id := 5, textDari := some "k", textPashto := some "l"
      translationEn := some "m", meaning := some "n", category := some "o" } ]

theorem add_assigns_next_id_witness :
    requiredMissing bOk = false ∧
    ((addProverb bOk (.content l135)).1 = .content (l135 ++ [newProverbOf bOk l135]) ∧
     (l135 = [] → (newProverbOf bOk l135).id = 1) ∧
     (∀ q ∈ l135, q.id < (newProverbOf bOk l135).id) ∧
     (l135 ≠ [] → ((newProverbOf bOk l135).id - 1) ∈ l135.map Proverb.id)) ∧
    (newProverbOf bOk l135).id = 6 :=
  ⟨by decide, add_assigns_next_id bOk l135 (by decide), by decide⟩

/-- C7: a create whose required fields include an empty or missing one
leaves the file untouched (whatever its state — the read is never reached)
and re-renders the form with exactly the submitted body. -/
theorem add_missing_field_rejected (b : Body) (fs : FileState)
    (h : falsy b.textDari = true ∨ falsy b.textPashto = true ∨
         falsy b.translationEn = true ∨ falsy b.category = true) :
    addProverb b fs =
      (fs, .renderAddForm (some "Please fill in all required fields") b) := by
  have hm : requiredMissing b = true := by
    simp only [requiredMissing, Bool.or_eq_true]
    tauto
  simp [addProverb, hm]

/-- A create request with a missing required field, used by the witnesses. -/
def bBad : Body :=
  { textDari := none, textPashto := some "p", translationEn := some "t"
    meaning := none, category := some "wisdom" }

theorem add_missing_field_rejected_witness :
    (falsy bBad.textDari = true ∨ falsy bBad.textPashto = true ∨
     falsy bBad.translationEn = true ∨ falsy bBad.category = true) ∧
    addProverb bBad (.content l135) =
      (.content l135, .renderAddForm (some "Please fill in all required fields") bBad) :=
  ⟨by decide, add_missing_field_rejected bBad (.content l135) (by decide)⟩

/-- C9: initialization on an absent file (equivalently, an empty store)
seeds exactly the five sample records with ids 1..5, and initialization on a
non-empty store changes nothing. -/
theorem bootstrap_seeds_five (l : List Proverb) (h : l ≠ []) :
    (initializeData .absent).1 = .content sampleProverbs ∧
    (initializeData (.content [])).1 = .content sampleProverbs ∧
    sampleProverbs.length = 5 ∧
    sampleProverbs.map Proverb.id = [1, 2, 3, 4, 5] ∧
    initializeData (.content l) = (.content l, .ok ()) := by
  refine ⟨rfl, rfl, rfl, rfl, ?_⟩
  have hlen : l.length ≠ 0 := fun h0 => h (List.length_eq_zero.mp h0)
  simp [initializeData, readProverbs, hlen]

theorem bootstrap_seeds_five_witness :
    l135 ≠ [] ∧
    ((initializeData .absent).1 = .content sampleProverbs ∧
     (initializeData (.content [])).1 = .content sampleProverbs ∧
     sampleProverbs.length = 5 ∧
     sampleProverbs.map Proverb.id = [1, 2, 3, 4, 5] ∧
     initializeData (.content l135) = (.content l135, .ok ())) :=
  ⟨by decide, bootstrap_seeds_five l135 (by decide)⟩

/-! ### Helper lemmas about locating a record by id -/

lemma findIdx_eq_length_of_none (pr : Proverb → Bool) (l : List Proverb)
    (h : ∀ p ∈ l, pr p = false) : l.findIdx pr = l.length := by
  induction l with
  | nil => simp
  | cons a t ih =>
      have ha := h a (List.mem_cons_self a t)
      have ht := ih (fun p hp => h p (List.mem_cons_of_mem a hp))
      simp [List.findIdx_cons, ha, ht]

lemma mem_ids_split (id : Int) (l : List Proverb) (h : id ∈ l.map Proverb.id) :
    ∃ l1 p l2, l = l1 ++ p :: l2 ∧ (∀ q ∈ l1, q.id ≠ id) ∧ p.id = id ∧
      l.findIdx (fun q => q.id == id) = l1.length := by
  induction l with
  | nil => simp at h
  | cons a t ih =>
      by_cases ha : a.id = id
      · exact ⟨[], a, t, by simp, by simp, ha, by simp [List.findIdx_cons, ha]⟩
      · have h' : id ∈ t.map Proverb.id := by
          rcases List.mem_map.mp h with ⟨q, hq, hqid⟩
          rcases List.mem_cons.mp hq with rfl | hq
          · exact absurd hqid ha
          · exact List.mem_map.mpr ⟨q, hq, hqid⟩
        obtain ⟨l1, p, l2, e, hl1, hp, hidx⟩ := ih h'
        have ha' : (a.id == id) = false := by simp [ha]
        refine ⟨a :: l1, p, l2, by simp [e], ?_, hp, ?_⟩
        · intro q hq
          rcases List.mem_cons.mp hq with rfl | hq
          · exact ha
          · exact hl1 q hq
        · simp [List.findIdx_cons, ha', hidx]

lemma getElem_opt_split (l1 : List Proverb) (p : Proverb) (l2 : List Proverb) :
    (l1 ++ p :: l2)[l1.length]? = some p := by
  induction l1 with
  | nil => simp
  | cons a t ih => simpa using ih

lemma set_split (l1 : List Proverb) (p r : Proverb) (l2 : List Proverb) :
    (l1 ++ p :: l2).set l1.length r = l1 ++ r :: l2 := by
  induction l1 with
  | nil => rfl
  | cons a t ih => simp [List.set, ih]

lemma edit_found (id : Int) (b : Body) (l : List Proverb)
    (h : id ∈ l.map Proverb.id) :
    ∃ l1 p l2, l = l1 ++ p :: l2 ∧ (∀ q ∈ l1, q.id ≠ id) ∧ p.id = id ∧
      editProverb id b (.content l) =
        (.content (l1 ++ updatedProverb p b :: l2),
         .redirect s!"/proverb/{id}?success=Proverb updated successfully") := by
  obtain ⟨l1, p, l2, e, hl1, hp, hidx⟩ := mem_ids_split id l h
  refine ⟨l1, p, l2, e, hl1, hp, ?_⟩
  subst e
  simp only [editProverb, readProverbs, hidx, getElem_opt_split, set_split, writeProverbs]

lemma get_notfound (id : Int) (l : List Proverb) (h : ∀ p ∈ l, p.id ≠ id) :
    getProverb id (.content l) = (.content l, .redirect "/?error=Proverb not found") := by
  have hf : l.find? (fun p => p.id == id) = none :=
    List.find?_eq_none.mpr (fun p hp => by simp [h p hp])
  simp [getProverb, readProverbs, hf]

lemma edit_notfound (id : Int) (b : Body) (l : List Proverb) (h : ∀ p ∈ l, p.id ≠ id) :
    editProverb id b (.content l) = (.content l, .redirect "/?error=Proverb not found") := by
  have hidx : l.findIdx (fun p => p.id == id) = l.length :=
    findIdx_eq_length_of_none _ l (fun p hp => by simp [h p hp])
  simp [editProverb, readProverbs, hidx]

lemma delete_notfound (id : Int) (l : List Proverb) (h : ∀ p ∈ l, p.id ≠ id) :
    deleteProverb id (.content l) =
      (.content l, .redirect s!"/proverb/{id}?error=Proverb not found") := by
  have hfl : l.filter (fun p => !(p.id == id)) = l :=
    List.filter_eq_self.mpr (fun p hp => by simp [h p hp])
  simp [deleteProverb, readProverbs, hfl]

/-- C3: on any well-formed store containing no record with the requested
id, Get-by-id, Edit-submit and Delete leave the store exactly as it was and
each yields a not-found redirect. -/
theorem notfound_never_mutates (id : Int) (b : Body) (l : List Proverb)
    (h : ∀ p ∈ l, p.id ≠ id) :
    getProverb id (.content l) = (.content l, .redirect "/?error=Proverb not found") ∧
    editProverb id b (.content l) = (.content l, .redirect "/?error=Proverb not found") ∧
    deleteProverb id (.content l) =
      (.content l, .redirect s!"/proverb/{id}?error=Proverb not found") :=
  ⟨get_notfound id l h, edit_notfound id b l h, delete_notfound id l h⟩

theorem notfound_never_mutates_witness :
    (∀ p ∈ l135, p.id ≠ (2 : Int)) ∧
    (getProverb 2 (.content l135) = (.content l135, .redirect "/?error=Proverb not found") ∧
     editProverb 2 bOk (.content l135) = (.content l135, .redirect "/?error=Proverb not found") ∧
     deleteProverb 2 (.content l135) =
       (.content l135, .redirect s!"/proverb/{(2 : Int)}?error=Proverb not found")) :=
  ⟨by decide, notfound_never_mutates 2 bOk l135 (by decide)⟩

/-- C4: an edit whose id matches splits the store as `l1 ++ p :: l2` with
the match at the same position; the result is `l1 ++ p' :: l2` where `p'`
keeps `p`'s id and takes every other field from the submitted body, and
every other record is byte-for-byte unchanged. -/
theorem edit_replaces_fields_in_place (id : Int) (b : Body) (l : List Proverb)
    (h : id ∈ l.map Proverb.id) :
    ∃ l1 p l2, l = l1 ++ p :: l2 ∧ (∀ q ∈ l1, q.id ≠ id) ∧ p.id = id ∧
      editProverb id b (.content l) =
        (.content (l1 ++ updatedProverb p b :: l2),
         .redirect s!"/proverb/{id}?success=Proverb updated successfully") ∧
      (updatedProverb p b).id = p.id ∧
      (updatedProverb p b).textDari = b.textDari ∧
      (updatedProverb p b).textPashto = b.textPashto ∧
      (updatedProverb p b).translationEn = b.translationEn ∧
      (updatedProverb p b).meaning = b.meaning ∧
      (updatedProverb p b).category = b.category := by
  obtain ⟨l1, p, l2, e, hl1, hp, he⟩ := edit_found id b l h
  exact ⟨l1, p, l2, e, hl1, hp, he, rfl, rfl, rfl, rfl, rfl, rfl⟩

theorem edit_replaces_fields_in_place_witness :
    (3 : Int) ∈ l135.map Proverb.id ∧
    (∃ l1 p l2, l135 = l1 ++ p :: l2 ∧ (∀ q ∈ l1, q.id ≠ (3 : Int)) ∧ p.id = 3 ∧
      editProverb 3 bOk (.content l135) =
        (.content (l1 ++ updatedProverb p bOk :: l2),
         .redirect s!"/proverb/{(3 : Int)}?success=Proverb updated successfully") ∧
      (updatedProverb p bOk).id = p.id ∧
      (updatedProverb p bOk).textDari = bOk.textDari ∧
      (updatedProverb p bOk).textPashto = bOk.textPashto ∧
      (updatedProverb p bOk).translationEn = bOk.translationEn ∧
      (updatedProverb p bOk).meaning = bOk.meaning ∧
      (updatedProverb p bOk).category = bOk.category) :=
  ⟨by decide, edit_replaces_fields_in_place 3 bOk l135 (by decide)⟩

/-- C10: edit performs no presence validation — whatever the body holds
(empty strings, missing fields) is stored verbatim into the matched record,
and a missing `meaning` is stored as the absent value; create, by contrast,
defaults a missing `meaning` to the empty string. -/
theorem edit_skips_validation (id : Int) (b : Body) (l : List Proverb)
    (h : id ∈ l.map Proverb.id) :
    (∃ l1 p l2, l = l1 ++ p :: l2 ∧ p.id = id ∧
      editProverb id b (.content l) =
        (.content (l1 ++ updatedProverb p b :: l2),
         .redirect s!"/proverb/{id}?success=Proverb updated successfully") ∧
      (updatedProverb p b).textDari = b.textDari ∧
      (updatedProverb p b).textPashto = b.textPashto ∧
      (updatedProverb p b).translationEn = b.translationEn ∧
      (updatedProverb p b).category = b.category ∧
      (updatedProverb p b).meaning = b.meaning) ∧
    (∀ b2 : Body, b2.meaning = none → (newProverbOf b2 l).meaning = some "") := by
  obtain ⟨l1, p, l2, e, _, hp, he⟩ := edit_found id b l h
  refine ⟨⟨l1, p, l2, e, hp, he, rfl, rfl, rfl, rfl, rfl⟩, ?_⟩
  intro b2 hb2
  simp [newProverbOf, falsy, hb2]

/-- A body with every field missing (an empty edit submission). -/
def bEmpty : Body :=
  { textDari := none, textPashto := none, translationEn := none
    meaning := none, category := none }

theorem edit_skips_validation_witness :
    (1 : Int) ∈ l135.map Proverb.id ∧
    ((∃ l1 p l2, l135 = l1 ++ p :: l2 ∧ p.id = (1 : Int) ∧
      editProverb 1 bEmpty (.content l135) =
        (.content (l1 ++ updatedProverb p bEmpty :: l2),
         .redirect s!"/proverb/{(1 : Int)}?success=Proverb updated successfully") ∧
      (updatedProverb p bEmpty).textDari = bEmpty.textDari ∧
      (updatedProverb p bEmpty).textPashto = bEmpty.textPashto ∧
      (updatedProverb p bEmpty).translationEn = bEmpty.translationEn ∧
      (updatedProverb p bEmpty).category = bEmpty.category ∧
      (updatedProverb p bEmpty).meaning = bEmpty.meaning) ∧
    (∀ b2 : Body, b2.meaning = none → (newProverbOf b2 l135).meaning = some "")) :=
  ⟨by decide, edit_skips_validation 1 bEmpty l135 (by decide)⟩

/-! ### Helper lemmas for delete and the id invariant -/

lemma nodup_ids_split (l1 : List Proverb) (p : Proverb) (l2 : List Proverb)
    (h : ((l1 ++ p :: l2).map Proverb.id).Nodup) :
    (∀ q ∈ l1, q.id ≠ p.id) ∧ (∀ q ∈ l2, q.id ≠ p.id) := by
  rw [List.map_append, List.map_cons, List.nodup_append] at h
  obtain ⟨_, h2, hd⟩ := h
  constructor
  · intro q hq heq
    exact hd (List.mem_map_of_mem Proverb.id hq)
      (by rw [heq]; exact List.mem_cons_self _ _)
  · intro q hq heq
    exact (List.nodup_cons.mp h2).1
      (by rw [← heq]; exact List.mem_map_of_mem Proverb.id hq)

lemma delete_found (id : Int) (l : List Proverb) (h : id ∈ l.map Proverb.id) :
    deleteProverb id (.content l) =
      (.content (l.filter (fun q => !(q.id == id))),
       .redirect "/?success=Proverb deleted successfully") := by
  have hlen : ¬ l.length = (l.filter (fun q => !(q.id == id))).length := by
    obtain ⟨l1, p, l2, e, _, hp, _⟩ := mem_ids_split id l h
    subst e
    have hpf : (!(p.id == id)) = false := by simp [hp]
    have h1 : (l1.filter (fun q => !(q.id == id))).length ≤ l1.length :=
      List.length_filter_le _ _
    have h2 : (l2.filter (fun q => !(q.id == id))).length ≤ l2.length :=
      List.length_filter_le _ _
    simp only [List.filter_append, List.filter_cons, hpf, Bool.false_eq_true,
      if_false, List.length_append, List.length_cons]
    omega
  simp only [deleteProverb, readProverbs, writeProverbs]
  rw [if_neg hlen]

/-- C6: deleting an id that is present in a store with pairwise-distinct
ids removes exactly the matching record: the store splits as
`l1 ++ p :: l2` around the unique match and the result is `l1 ++ l2`,
every other record surviving in its original relative order. -/
theorem delete_removes_exactly_target (id : Int) (l : List Proverb)
    (hnd : (l.map Proverb.id).Nodup) (hmem : id ∈ l.map Proverb.id) :
    ∃ l1 p l2, l = l1 ++ p :: l2 ∧ p.id = id ∧
      (∀ q ∈ l1 ++ l2, q.id ≠ id) ∧
      deleteProverb id (.content l) =
        (.content (l1 ++ l2), .redirect "/?success=Proverb deleted successfully") := by
  obtain ⟨l1, p, l2, e, hl1, hp, _⟩ := mem_ids_split id l hmem
  subst e
  obtain ⟨_, h2⟩ := nodup_ids_split l1 p l2 hnd
  have hpf : (!(p.id == id)) = false := by simp [hp]
  have hfl : (l1 ++ p :: l2).filter (fun q => !(q.id == id)) = l1 ++ l2 := by
    rw [List.filter_append, List.filter_cons,
      List.filter_eq_self.mpr (fun q hq => by simp [hl1 q hq]),
      List.filter_eq_self.mpr (fun q hq => by simp [show q.id ≠ id from hp ▸ h2 q hq])]
    simp [hpf]
  refine ⟨l1, p, l2, rfl, hp, ?_, ?_⟩
  · intro q hq
    rcases List.mem_append.mp hq with hq | hq
    · exact hl1 q hq
    · exact fun he => h2 q hq (he.trans hp.symm)
  · rw [delete_found id _ hmem, hfl]

/-- The concrete store of the spec example: ids 1, 2, 3. -/
def q1 : Proverb :=
  { id := 1, textDari := some "a1", textPashto := some "b1"
    translationEn := some "c1", meaning := some "d1", category := some "e1" }

def q2 : Proverb :=
  { id := 2, textDari := some "a2", textPashto := some "b2"
    translationEn := some "c2", meaning := some "d2", category := some "e2" }

def q3 : Proverb :=
  { id := 3, textDari := some "a3", textPashto := some "b3"
    translationEn := some "c3", meaning := some "d3", category := some "e3" }

def l123 : List Proverb := [q1, q2, q3]

theorem delete_removes_exactly_target_witness :
    (l123.map Proverb.id).Nodup ∧ (2 : Int) ∈ l123.map Proverb.id ∧
    (∃ l1 p l2, l123 = l1 ++ p :: l2 ∧ p.id = (2 : Int) ∧
      (∀ q ∈ l1 ++ l2, q.id ≠ (2 : Int)) ∧
      deleteProverb 2 (.content l123) =
        (.content (l1 ++ l2), .redirect "/?success=Proverb deleted successfully")) ∧
    (deleteProverb 2 (.content l123)).1 = .content [q1, q3] ∧
    [q1, q3].map Proverb.id = [1, 3] :=
  ⟨by decide, by decide,
   delete_removes_exactly_target 2 l123 (by decide) (by decide),
   by decide, by decide⟩

/-- C5: on a store with pairwise-distinct ids, a successful create appends
one record with a strictly fresh id (so ids stay distinct, and in
particular stay distinct across any number of successful creates), an edit
leaves the id sequence exactly as it was (no id is changed, no record is
removed), and a delete leaves the id sequence a duplicate-free subsequence
of the old one. -/
theorem ids_unique_invariant (l : List Proverb) (b : Body) (id : Int)
    (hnd : (l.map Proverb.id).Nodup) :
    (requiredMissing b = false →
      (addProverb b (.content l)).1 = .content (l ++ [newProverbOf b l]) ∧
      (l ++ [newProverbOf b l]).map Proverb.id
        = l.map Proverb.id ++ [(newProverbOf b l).id] ∧
      ((l ++ [newProverbOf b l]).map Proverb.id).Nodup) ∧
    (∀ l', (editProverb id b (.content l)).1 = .content l' →
      l'.map Proverb.id = l.map Proverb.id) ∧
    (∀ l', (deleteProverb id (.content l)).1 = .content l' →
      (l'.map Proverb.id).Sublist (l.map Proverb.id) ∧ (l'.map Proverb.id).Nodup) := by
  refine ⟨?_, ?_, ?_⟩
  · intro hb
    have hnotmem : (newProverbOf b l).id ∉ l.map Proverb.id := by
      intro hm
      rcases List.mem_map.mp hm with ⟨q, hq, hqe⟩
      have hlt := nextId_gt l q hq
      have : (newProverbOf b l).id = nextId l := rfl
      omega
    refine ⟨by simp [addProverb, hb, readProverbs, writeProverbs], by simp, ?_⟩
    rw [List.map_append, List.map_cons, List.map_nil, List.nodup_append]
    refine ⟨hnd, List.nodup_singleton _, ?_⟩
    intro a ha hb'
    rw [List.mem_singleton.mp hb'] at ha
    exact hnotmem ha
  · intro l' hl'
    by_cases hm : id ∈ l.map Proverb.id
    · obtain ⟨l1, p, l2, e, _, hp, he⟩ := edit_found id b l hm
      rw [he] at hl'
      simp only [FileState.content.injEq] at hl'
      subst hl'
      subst e
      simp [updatedProverb]
    · have hall : ∀ p ∈ l, p.id ≠ id := fun p hp he =>
        hm (List.mem_map.mpr ⟨p, hp, he⟩)
      rw [edit_notfound id b l hall] at hl'
      simp only [FileState.content.injEq] at hl'
      subst hl'
      rfl
  · intro l' hl'
    by_cases hm : id ∈ l.map Proverb.id
    · rw [delete_found id l hm] at hl'
      simp only [FileState.content.injEq] at hl'
      subst hl'
      exact ⟨(List.filter_sublist l).map Proverb.id,
        hnd.sublist ((List.filter_sublist l).map Proverb.id)⟩
    · have hall : ∀ p ∈ l, p.id ≠ id := fun p hp he =>
        hm (List.mem_map.mpr ⟨p, hp, he⟩)
      rw [delete_notfound id l hall] at hl'
      simp only [FileState.content.injEq] at hl'
      subst hl'
      exact ⟨List.Sublist.refl _, hnd⟩

theorem ids_unique_invariant_witness :
    (l135.map Proverb.id).Nodup ∧
    ((requiredMissing bOk = false →
      (addProverb bOk (.content l135)).1 = .content (l135 ++ [newProverbOf bOk l135]) ∧
      (l135 ++ [newProverbOf bOk l135]).map Proverb.id
        = l135.map Proverb.id ++ [(newProverbOf bOk l135).id] ∧
      ((l135 ++ [newProverbOf bOk l135]).map Proverb.id).Nodup) ∧
    (∀ l', (editProverb 3 bOk (.content l135)).1 = .content l' →
      l'.map Proverb.id = l135.map Proverb.id) ∧
    (∀ l', (deleteProverb 3 (.content l135)).1 = .content l' →
      (l'.map Proverb.id).Sublist (l135.map Proverb.id) ∧ (l'.map Proverb.id).Nodup)) :=
  ⟨by decide, ids_unique_invariant l135 bOk 3 (by decide)⟩
